import Mathlib

set_option maxHeartbeats 1000000

namespace GitlabAnalyser

/-!
Shallow embedding of the GitlabAnalyserBackend repository.

Operation store (src/operation_store.py): a JSON object in the file
operations.json, modelled as an association list with Python-dict
semantics, wrapped in an Option because the file may be missing or
unparsable (both read as the empty mapping).
-/

/-- Python dict lookup (ops.get(k)): the entry with the given key, if any. -/
def dictGet {α : Type} (k : String) (m : List (String × α)) : Option α :=
  match m with
  | [] => none
  | p :: rest => if p.1 = k then some p.2 else dictGet k rest

/-- Python dict membership test (k in ops). -/
def dictHas {α : Type} (k : String) (m : List (String × α)) : Bool :=
  match m with
  | [] => false
  | p :: rest => p.1 == k || dictHas k rest

/-- Python dict update (ops[k] = v): overwrite in place when the key is
present, append at the end otherwise. -/
def dictSet {α : Type} (k : String) (v : α) (m : List (String × α)) : List (String × α) :=
  match m with
  | [] => [(k, v)]
  | p :: rest => if p.1 = k then (k, v) :: rest else p :: dictSet k v rest

/-- Python dict deletion (del ops[k]): remove the entry with the given key. -/
def dictDel {α : Type} (k : String) (m : List (String × α)) : List (String × α) :=
  match m with
  | [] => []
  | p :: rest => if p.1 = k then rest else p :: dictDel k rest

/-- The backing file operations.json: none models a missing or unparsable
file, which _read_operations treats as the empty mapping. -/
def StoreFile (α : Type) : Type := Option (List (String × α))

/-- _read_operations: a missing or corrupt file yields the empty mapping. -/
def read_operations {α : Type} (st : StoreFile α) : List (String × α) :=
  match st with
  | none => []
  | some m => m

/-- _write_operations: json.dump rewrites the whole file with the mapping. -/
def write_operations {α : Type} (m : List (String × α)) : StoreFile α :=
  some m

/-- get_operation: read the whole mapping, return ops.get(op_id). -/
def get_operation {α : Type} (op_id : String) (st : StoreFile α) : Option α :=
  dictGet op_id (read_operations st)

/-- set_operation: read the whole mapping, set the entry for op_id, write
the whole mapping back. -/
def set_operation {α : Type} (op_id : String) (data : α) (st : StoreFile α) : StoreFile α :=
  write_operations (dictSet op_id data (read_operations st))

/-- delete_operation: read the mapping; only when op_id is present, delete
it and write the mapping back.  The second component records whether a
write to the backing file was performed. -/
def delete_operation {α : Type} (op_id : String) (st : StoreFile α) : StoreFile α × Bool :=
  if dictHas op_id (read_operations st) then
    (write_operations (dictDel op_id (read_operations st)), true)
  else (st, false)

/-!
Concurrency model for two concurrent set_operation writers (claim C2).
In the source, the lock is held inside _read_operations and inside
_write_operations separately, not across the whole read-mutate-write span
of set_operation, so each writer contributes two atomic events: its locked
read and its locked write.
-/

inductive WriterEvent : Type
  | readA | writeA | readB | writeB
deriving DecidableEq, BEq

structure ConcState (α : Type) : Type where
  file : StoreFile α
  snapA : List (String × α)
  snapB : List (String × α)

/-- One atomic event of a concurrent execution of set_operation idA vA
(writer A) and set_operation idB vB (writer B): a locked read snapshots the
file into the writer's local ops, a locked write stores the writer's
mutated snapshot. -/
def concStep {α : Type} (idA : String) (vA : α) (idB : String) (vB : α) :
    ConcState α → WriterEvent → ConcState α
  | st, .readA => { st with snapA := read_operations st.file }
  | st, .writeA => { st with file := write_operations (dictSet idA vA st.snapA) }
  | st, .readB => { st with snapB := read_operations st.file }
  | st, .writeB => { st with file := write_operations (dictSet idB vB st.snapB) }

/-- Run an interleaving of the two writers' events from an initial file. -/
def runWriters {α : Type} (idA : String) (vA : α) (idB : String) (vB : α)
    (events : List WriterEvent) (init : StoreFile α) : ConcState α :=
  events.foldl (concStep idA vA idB vB) ⟨init, [], []⟩

/-- An interleaving of the two writers: each of the four events happens
exactly once, and each writer's read precedes its own write. -/
def validInterleaving (events : List WriterEvent) : Prop :=
  events.Perm [WriterEvent.readA, WriterEvent.writeA, WriterEvent.readB, WriterEvent.writeB] ∧
  events.indexOf WriterEvent.readA < events.indexOf WriterEvent.writeA ∧
  events.indexOf WriterEvent.readB < events.indexOf WriterEvent.writeB

instance (events : List WriterEvent) : Decidable (validInterleaving events) := by
  unfold validInterleaving
  infer_instance

/-!
Operation lifecycle (src/main.py): JSON payload values stored in the
operation store and the polling endpoint get_operation_status (claim C4).
-/

inductive JsonVal : Type
  | null
  | bool (b : Bool)
  | num (q : ℚ)
  | str (s : String)
  | arr (elems : List JsonVal)
  | obj (fields : List (String × JsonVal))

/-- Python truthiness of a JSON value, as used by the `if not op` test in
get_operation_status: None, False, 0, empty string, empty list and empty
object are falsy. -/
def JsonVal.truthy : JsonVal → Bool
  | .null => false
  | .bool b => b
  | .num q => if q = 0 then false else true
  | .str s => if s = "" then false else true
  | .arr elems => !elems.isEmpty
  | .obj fields => !fields.isEmpty

/-- The HTTPException raised by the polling endpoint. -/
structure HTTPError : Type where
  status_code : Nat
  detail : String
deriving DecidableEq

/-- GET /status/operation_id: read the operation from the store; a missing
id (or a stored falsy value) raises 404 Operation not found, otherwise the
stored payload is returned as-is. -/
def get_operation_status (operation_id : String) (st : StoreFile JsonVal) :
    Except HTTPError JsonVal :=
  match get_operation operation_id st with
  | none => Except.error ⟨404, "Operation not found"⟩
  | some op => if op.truthy then Except.ok op else Except.error ⟨404, "Operation not found"⟩

/-- The uniform result shape produced by every agent task
(BaseAgent._format_error / _format_success). -/
structure AgentResult (α : Type) : Type where
  status : String
  message : String
  data : Option α

/-- BaseAgent._format_error: the structured error shape. -/
def format_error {α : Type} (msg : String) : AgentResult α :=
  ⟨"error", msg, none⟩

/-- BaseAgent._format_success: the structured success shape. -/
def format_success {α : Type} (msg : String) (d : α) : AgentResult α :=
  ⟨"success", msg, some d⟩

/-- The JSON object written to the operation store for an agent result:
always an object with status, message and data fields. -/
def resultToJson {α : Type} (enc : α → JsonVal) (r : AgentResult α) : JsonVal :=
  JsonVal.obj [("status", JsonVal.str r.status), ("message", JsonVal.str r.message),
    ("data", match r.data with | none => JsonVal.null | some d => enc d)]

/-- POST /analyze: mints an operation id, schedules the background task and
returns the processing ack immediately; nothing is written to the store at
schedule time (the store component of the pair is unchanged). -/
def analyze_repository_schedule (operation_id : String) (st : StoreFile JsonVal) :
    (String × String × String) × StoreFile JsonVal :=
  (("processing", "Repository analysis started", operation_id), st)

/-- The scheduled background task body run_analysis: execute the agent and
write its result to the store exactly once. -/
def run_analysis_write {α : Type} (enc : α → JsonVal) (operation_id : String)
    (result : AgentResult α) (st : StoreFile JsonVal) : StoreFile JsonVal :=
  set_operation operation_id (resultToJson enc result) st

/-!
Agents (src/agents/): constructor configuration checks (claim C7), the
analyze task (claims C3, C5), and the smaller task kinds.
-/

/-- The environment variables consulted by the agent constructors. -/
structure Env : Type where
  gitlab_url : Option String
  gitlab_token : Option String
  google_project_id : Option String
  openai_api_key : Option String
  openai_model : Option String

/-- State built by BaseAgent.__init__. -/
structure BaseAgentState : Type where
  openai_api_key : Option String
  openai_model : String

/-- BaseAgent.__init__: records the completion-service credential and model
name; a missing OPENAI_API_KEY only prints a warning and never raises. -/
def baseAgentInit (env : Env) : BaseAgentState :=
  ⟨env.openai_api_key, env.openai_model.getD "gpt-3.5-turbo"⟩

/-- BaseAgent._make_openai_request: raises the configuration error when the
credential is absent; otherwise the outcome of the outbound completion call
is supplied by the oracle. -/
def makeOpenAIRequest (st : BaseAgentState) (callOutcome : Except String String) :
    Except String String :=
  if st.openai_api_key.isNone then Except.error "OPENAI_API_KEY is not set."
  else callOutcome

structure CodeAnalysisState : Type where
  base : BaseAgentState
  gitlab_url : String
  gitlab_token : String

/-- CodeAnalysisAgent.__init__: raises ValueError when the GitLab URL or
token is absent. -/
def codeAnalysisAgentInit (env : Env) : Except String CodeAnalysisState :=
  match env.gitlab_url, env.gitlab_token with
  | some u, some t => Except.ok ⟨baseAgentInit env, u, t⟩
  | _, _ => Except.error "GitLab configuration is missing"

/-- ValidationAgent.__init__: raises ValueError when the GitLab URL or
token is absent. -/
def validationAgentInit (env : Env) : Except String CodeAnalysisState :=
  match env.gitlab_url, env.gitlab_token with
  | some u, some t => Except.ok ⟨baseAgentInit env, u, t⟩
  | _, _ => Except.error "GitLab configuration is missing"

structure DeploymentState : Type where
  base : BaseAgentState
  gitlab_url : String
  gitlab_token : String
  project_id : String

/-- DeploymentAgent.__init__: raises ValueError when the GitLab URL or
token is absent, then when the cloud project id is absent. -/
def deploymentAgentInit (env : Env) : Except String DeploymentState :=
  match env.gitlab_url, env.gitlab_token with
  | some u, some t =>
    match env.google_project_id with
    | some p => Except.ok ⟨baseAgentInit env, u, t, p⟩
    | none => Except.error "Google Cloud project ID is missing"
  | _, _ => Except.error "GitLab configuration is missing"

/-- PipelineAgent.__init__: only BaseAgent.__init__, which never raises. -/
def pipelineAgentInit (env : Env) : Except String BaseAgentState :=
  Except.ok (baseAgentInit env)

/-- PipelineGenAgent.__init__: only BaseAgent.__init__, which never raises. -/
def pipelineGenAgentInit (env : Env) : Except String BaseAgentState :=
  Except.ok (baseAgentInit env)

/-! Analyze task (src/agents/code_analysis_agent.py). -/

/-- One entry of project.repository_tree. -/
structure TreeItem : Type where
  path : String
  typ : String
deriving DecidableEq

/-- The analyze task's view of one GitLab project: the repository tree
listing (which may fail) and file-content retrieval, where none models a
raised lookup error, as swallowed per file by _analyze_dependencies. -/
structure GitlabProject : Type where
  tree : Except String (List TreeItem)
  fileContent : String → Option String

/-- Outcome of gl.projects.get: a project, or a raised GitlabGetError with
its response code and text. -/
inductive GitlabGetOutcome : Type
  | ok (project : GitlabProject)
  | err (response_code : Nat) (msg : String)

/-- The GitLab client: resolving a project path. -/
structure GitlabClient : Type where
  projectsGet : String → GitlabGetOutcome

/-- CodeAnalysisAgent._extract_project_path, including its rewrapping of a
format error by the surrounding handler. -/
def extractProjectPath (repo_url : String) : Except String String :=
  let path_parts := ((repo_url.splitOn "//").getLastD "").splitOn "/"
  if path_parts.length < 2 then
    Except.error ("Error parsing GitLab URL: Invalid GitLab URL format: " ++ repo_url)
  else
    let parts := (path_parts.drop 1).filter (fun p => p != "")
    let project_path := String.intercalate "/" parts
    Except.ok (if project_path.endsWith ".git" then project_path.dropRight 4 else project_path)

structure RepoStructure : Type where
  files : List String
  directories : List String
deriving DecidableEq

/-- CodeAnalysisAgent._analyze_repo_structure. -/
def analyzeRepoStructure (project : GitlabProject) : Except String RepoStructure :=
  match project.tree with
  | Except.ok items =>
    Except.ok ⟨items.map (fun i => i.path),
      (items.filter (fun i => i.typ == "tree")).map (fun i => i.path)⟩
  | Except.error e => Except.error ("Error analyzing repository structure: " ++ e)

/-- The ecosystems probed by _analyze_dependencies, in source order. -/
def dependency_files : List (String × List String) :=
  [("python", ["requirements.txt", "setup.py", "Pipfile"]),
   ("node", ["package.json"]),
   ("java", ["pom.xml", "build.gradle"]),
   ("ruby", ["Gemfile"]),
   ("php", ["composer.json"])]

/-- The inner loop of _analyze_dependencies: first manifest file of one
ecosystem that can be fetched and decoded (a per-file failure continues). -/
def findManifest (project : GitlabProject) : List String → Option String
  | [] => none
  | f :: fs =>
    match project.fileContent f with
    | some c => some c
    | none => findManifest project fs

def analyzeDependenciesAux (project : GitlabProject) :
    List (String × List String) → List (String × String)
  | [] => []
  | (lang, files) :: rest =>
    match findManifest project files with
    | some c => (lang, c) :: analyzeDependenciesAux project rest
    | none => analyzeDependenciesAux project rest

/-- CodeAnalysisAgent._analyze_dependencies: an insertion-ordered mapping
from ecosystem to the content of its first found manifest file. -/
def analyzeDependencies (project : GitlabProject) : List (String × String) :=
  analyzeDependenciesAux project dependency_files

/-- Python str.split with a one-character separator, on code points. -/
def pySplitOnChar (sep : Char) : List Char → List (List Char)
  | [] => [[]]
  | c :: cs =>
    match pySplitOnChar sep cs with
    | [] => [[c]]
    | h :: t => if c == sep then [] :: h :: t else (c :: h) :: t

/-- file.split(".")[-1].lower(). -/
def fileExtension (file : String) : String :=
  String.mk (((pySplitOnChar '.' file.toList).getLastD []).map Char.toLower)

/-- extensions[ext] = extensions.get(ext, 0) + 1 on the insertion-ordered
dict model. -/
def countIncr (k : String) (m : List (String × Nat)) : List (String × Nat) :=
  match m with
  | [] => [(k, 1)]
  | p :: rest => if p.1 = k then (p.1, p.2 + 1) :: rest else p :: countIncr k rest

/-- The extension-count dict built by _detect_language. -/
def countExtensions (files : List String) : List (String × Nat) :=
  files.foldl (fun m f => countIncr (fileExtension f) m) []

def ext_to_lang : List (String × String) :=
  [("py", "python"), ("js", "javascript"), ("ts", "typescript"), ("java", "java"),
   ("rb", "ruby"), ("php", "php"), ("go", "go")]

/-- Python max(items, key=count): the first element of maximal count in
iteration order (a later element replaces the current best only when
strictly greater). -/
def pyMaxBySnd : List (String × Nat) → Option (String × Nat)
  | [] => none
  | x :: xs => some (xs.foldl (fun acc y => if acc.2 < y.2 then y else acc) x)

/-- CodeAnalysisAgent._detect_language: the first dependency ecosystem when
any manifest was found, otherwise the language mapped from the most common
file extension, defaulting to unknown. -/
def detectLanguage (structure_files : List String)
    (dependencies : List (String × String)) : String :=
  match dependencies with
  | (lang, _) :: _ => lang
  | [] =>
    match pyMaxBySnd (countExtensions structure_files) with
    | some (ext, _) => (dictGet ext ext_to_lang).getD "unknown"
    | none => "unknown"

def build_steps_table : List (String × List String) :=
  [("python", ["install dependencies", "build wheel"]),
   ("javascript", ["install dependencies", "build assets"]),
   ("typescript", ["install dependencies", "compile typescript", "build assets"]),
   ("java", ["install dependencies", "compile", "package"]),
   ("ruby", ["install dependencies", "build gem"]),
   ("php", ["install dependencies", "build"]),
   ("go", ["install dependencies", "build binary"])]

/-- CodeAnalysisAgent._get_build_steps. -/
def getBuildSteps (language : String) : List String :=
  (dictGet language build_steps_table).getD ["install dependencies", "build"]

/-- Python str.startswith on code points. -/
def pyStartsWith : List Char → List Char → Bool
  | [], _ => true
  | _ :: _, [] => false
  | p :: ps, c :: cs => p == c && pyStartsWith ps cs

/-- Python str.endswith on code points. -/
def pyEndsWith (pattern s : List Char) : Bool :=
  pyStartsWith pattern.reverse s.reverse

/-- Python substring test (needle in haystack). -/
def strContains (needle : List Char) : List Char → Bool
  | [] => needle.isEmpty
  | c :: cs => pyStartsWith needle (c :: cs) || strContains needle cs

structure Analysis : Type where
  language : String
  has_dockerfile : Bool
  has_tests : Bool
  build_steps : List String
  test_steps : List String
  deploy_steps : List String
deriving DecidableEq

/-- CodeAnalysisAgent._generate_analysis. -/
def generateAnalysis (struct : RepoStructure) (dependencies : List (String × String)) :
    Analysis :=
  let language := detectLanguage struct.files dependencies
  let has_dockerfile := struct.files.contains "Dockerfile"
  let has_tests := struct.files.any (fun f => strContains "test".toList f.toLower.toList)
  ⟨language, has_dockerfile, has_tests, getBuildSteps language,
    if has_tests then ["run tests"] else [], ["deploy to Cloud Run"]⟩

/-- Context handed to CodeAnalysisAgent.execute; none also covers a falsy
repository URL. -/
structure AnalyzeContext : Type where
  repo_url : Option String
  branch : Option String

structure AnalysisData : Type where
  struct : RepoStructure
  dependencies : List (String × String)
  analysis : Analysis

/-- The body of CodeAnalysisAgent.execute up to the catch-all handler: any
raise becomes an Except.error carrying the raised message. -/
def codeAnalysisBody (gl : GitlabClient) (ctx : AnalyzeContext) :
    Except String AnalysisData :=
  match ctx.repo_url with
  | none => Except.error "Repository URL is required"
  | some repo_url =>
    if repo_url = "" then Except.error "Repository URL is required"
    else
      match extractProjectPath repo_url with
      | Except.error e => Except.error e
      | Except.ok project_path =>
        match gl.projectsGet project_path with
        | GitlabGetOutcome.err 404 _ =>
          Except.error ("Repository not found: " ++ repo_url ++
            ". Please check if the URL is correct and you have access to it.")
        | GitlabGetOutcome.err _ m => Except.error ("GitLab API error: " ++ m)
        | GitlabGetOutcome.ok project =>
          match analyzeRepoStructure project with
          | Except.error e => Except.error e
          | Except.ok struct =>
            let dependencies := analyzeDependencies project
            Except.ok ⟨struct, dependencies, generateAnalysis struct dependencies⟩

/-- CodeAnalysisAgent.execute: catch-all around the body. -/
def codeAnalysisExecute (gl : GitlabClient) (ctx : AnalyzeContext) :
    AgentResult AnalysisData :=
  match codeAnalysisBody gl ctx with
  | Except.ok d => format_success "Repository analysis completed" d
  | Except.error e => format_error e

/-! Pipeline agent (src/agents/pipeline_agent.py). -/

/-- The analysis dict as consumed by the pipeline templates: only its
language key is read, with .get defaulting. -/
structure PipelineAnalysisDict : Type where
  language : Option String
deriving DecidableEq

/-- Context of PipelineAgent.execute and PipelineGenAgent.execute; none
also covers an empty (falsy) analysis dict. -/
structure PipelineContext : Type where
  analysis : Option PipelineAnalysisDict

def get_language_image (language : String) : String :=
  (dictGet language
    [("python", "python:3.9"), ("javascript", "node:16"), ("typescript", "node:16"),
     ("java", "maven:3.8"), ("ruby", "ruby:3.0"), ("php", "php:8.0"),
     ("go", "golang:1.16")]).getD "alpine:latest"

def get_build_commands (language : String) : String :=
  (dictGet language
    [("python", "pip install -r requirements.txt && python setup.py build"),
     ("javascript", "npm install && npm run build"),
     ("typescript", "npm install && npm run build"),
     ("java", "mvn clean package"),
     ("ruby", "bundle install && bundle exec rake build"),
     ("php", "composer install && php artisan build"),
     ("go", "go build -o app")]).getD "echo 'No build commands defined'"

def get_test_commands (language : String) : String :=
  (dictGet language
    [("python", "python -m pytest"), ("javascript", "npm test"), ("typescript", "npm test"),
     ("java", "mvn test"), ("ruby", "bundle exec rspec"), ("php", "php artisan test"),
     ("go", "go test ./...")]).getD "echo 'No test commands defined'"

/-- PipelineAgent._generate_basic_pipeline: the fixed template. -/
def generateBasicPipeline (analysis : PipelineAnalysisDict) : String :=
  let language := analysis.language.getD "unknown"
  "\nstages:\n  - build\n  - test\n  - deploy\n\nvariables:\n  DOCKER_DRIVER: overlay2\n\nbuild:\n  stage: build\n  image: " ++
    get_language_image language ++
    "\n  script:\n    - echo \"Building application...\"\n    - " ++
    get_build_commands language ++
    "\n  artifacts:\n    paths:\n      - build/\n    expire_in: 1 week\n\ntest:\n  stage: test\n  image: " ++
    get_language_image language ++
    "\n  script:\n    - echo \"Running tests...\"\n    - " ++
    get_test_commands language ++
    "\n  dependencies:\n    - build\n\ndeploy:\n  stage: deploy\n  image: alpine:latest\n  script:\n    - echo \"Deploying application...\"\n    - echo \"Deployment completed successfully\"\n  only:\n    - main\n"

def pipelineAgentBody (ctx : PipelineContext) : Except String String :=
  match ctx.analysis with
  | none => Except.error "Repository analysis is required"
  | some analysis => Except.ok (generateBasicPipeline analysis)

structure PipelineData : Type where
  pipeline_yaml : String
deriving DecidableEq

/-- PipelineAgent.execute: catch-all around the body. -/
def pipelineAgentExecute (ctx : PipelineContext) : AgentResult PipelineData :=
  match pipelineAgentBody ctx with
  | Except.ok y => format_success "Pipeline generation completed" ⟨y⟩
  | Except.error e => format_error e

/-! Pipeline generation agent (src/agents/pipeline_gen_agent.py). -/

/-- Python str.strip on code points: drop whitespace from both ends. -/
def dropTrailingWS (s : List Char) : List Char :=
  (s.reverse.dropWhile Char.isWhitespace).reverse

def pyStrip (s : List Char) : List Char :=
  dropTrailingWS (s.dropWhile Char.isWhitespace)

/-- PipelineGenAgent._clean_yaml_response on code points. -/
def cleanYamlResponse (s0 : List Char) : List Char :=
  let s1 := pyStrip s0
  let s2 := if pyStartsWith "```yaml".toList s1 then s1.drop 7 else s1
  let s3 := if pyStartsWith "```".toList s2 then s2.drop 3 else s2
  let s4 := if pyEndsWith "```".toList s3 then s3.take (s3.length - 3) else s3
  pyStrip s4

def cleanYamlResponseStr (s : String) : String :=
  String.mk (cleanYamlResponse s.toList)

/-- PipelineGenAgent._fix_common_yaml_issues: drop the code-fence lines,
keep every other line. -/
def fixCommonYamlIssues (s : String) : String :=
  String.intercalate "\n"
    ((s.splitOn "\n").filter (fun line => !pyStartsWith "```".toList (pyStrip line.toList)))

/-- Oracle for PipelineGenAgent.execute: the outbound completion call
outcome and the yaml.safe_load collaborator. -/
structure PipelineGenOracle : Type where
  openaiResponse : Except String String
  yamlValid : String → Bool
  yamlErrorMsg : String → String

def pipelineGenBody (st : BaseAgentState) (oracle : PipelineGenOracle)
    (ctx : PipelineContext) : Except String String :=
  match ctx.analysis with
  | none => Except.error "Repository analysis is required"
  | some _ =>
    match makeOpenAIRequest st oracle.openaiResponse with
    | Except.error e => Except.error e
    | Except.ok raw =>
      let pipeline_yaml := cleanYamlResponseStr raw
      if oracle.yamlValid pipeline_yaml then Except.ok pipeline_yaml
      else
        let fixed := fixCommonYamlIssues pipeline_yaml
        if oracle.yamlValid fixed then Except.ok fixed
        else Except.error ("Generated pipeline has invalid YAML syntax: " ++
          oracle.yamlErrorMsg fixed)

/-- PipelineGenAgent.execute: catch-all around the body. -/
def pipelineGenExecute (st : BaseAgentState) (oracle : PipelineGenOracle)
    (ctx : PipelineContext) : AgentResult PipelineData :=
  match pipelineGenBody st oracle ctx with
  | Except.ok y => ⟨"success", "Pipeline generated successfully", some ⟨y⟩⟩
  | Except.error e => format_error e

/-! Validation agent (src/agents/validation_agent.py). -/

/-- ValidationAgent._extract_project_path (no format check, no .git strip). -/
def extractProjectPathSimple (repo_url : String) : String :=
  String.intercalate "/" ((((repo_url.splitOn "//").getLastD "").splitOn "/").drop 1)

structure ValidationResult : Type where
  valid : Bool
  errors : List String
  warnings : List String
  merged_yaml : String
deriving DecidableEq

/-- ValidationAgent._validate_pipeline: the source returns a canned mock
success regardless of input (the real lint call is bypassed). -/
def validatePipelineMock (pipeline_yaml : String) : ValidationResult :=
  ⟨true, [], [], pipeline_yaml⟩

structure ValidationContext : Type where
  pipeline_yaml : Option String
  repo_url : String

def validationBody (gl : GitlabClient) (ctx : ValidationContext) :
    Except String ValidationResult :=
  match ctx.pipeline_yaml with
  | none => Except.error "Pipeline YAML is required"
  | some y =>
    match gl.projectsGet (extractProjectPathSimple ctx.repo_url) with
    | GitlabGetOutcome.err _ m => Except.error m
    | GitlabGetOutcome.ok _ =>
      -- the mock result is always valid, so the suggestions branch of
      -- execute is never taken
      Except.ok (validatePipelineMock y)

/-- ValidationAgent.execute: catch-all around the body. -/
def validationExecute (gl : GitlabClient) (ctx : ValidationContext) :
    AgentResult ValidationResult :=
  match validationBody gl ctx with
  | Except.ok r => ⟨"success", "Pipeline validation completed", some r⟩
  | Except.error e => format_error e

/-! Deployment agent (src/agents/deployment_agent.py). -/

structure PipelineDeployResult : Type where
  status : String
  message : String
  pipeline_url : String
deriving DecidableEq

structure CloudResult : Type where
  status : String
  message : String
  artifact_registry : String
  cloud_run : String
deriving DecidableEq

structure DeployData : Type where
  pipeline : PipelineDeployResult
  cloud : Option CloudResult

structure DeployContext : Type where
  pipeline_yaml : Option String
  repo_url : String
  deploy_to_cloud : Bool

/-- Oracle for DeploymentAgent.execute: project lookup, the .gitlab-ci.yml
upsert (ok carries the project web URL) and the cloud provisioning calls
(ok carries the artifact-registry and cloud-run resource names). -/
structure DeployOracle : Type where
  projectGet : GitlabGetOutcome
  deployPipeline : Except String String
  setupCloud : Except String (String × String)

def deploymentBody (oracle : DeployOracle) (ctx : DeployContext) :
    Except String DeployData :=
  match ctx.pipeline_yaml with
  | none => Except.error "Pipeline YAML is required"
  | some _ =>
    match oracle.projectGet with
    | GitlabGetOutcome.err _ m => Except.error m
    | GitlabGetOutcome.ok _ =>
      match oracle.deployPipeline with
      | Except.error e => Except.error ("Error deploying pipeline: " ++ e)
      | Except.ok web_url =>
        if ctx.deploy_to_cloud then
          match oracle.setupCloud with
          | Except.error e =>
            Except.error ("Error setting up Google Cloud resources: " ++ e)
          | Except.ok (ar, cr) =>
            Except.ok ⟨⟨"success", "Pipeline deployed to GitLab", web_url ++ "/-/pipelines"⟩,
              some ⟨"success", "Google Cloud resources created", ar, cr⟩⟩
        else
          Except.ok ⟨⟨"success", "Pipeline deployed to GitLab", web_url ++ "/-/pipelines"⟩, none⟩

/-- DeploymentAgent.execute: catch-all around the body. -/
def deploymentExecute (oracle : DeployOracle) (ctx : DeployContext) :
    AgentResult DeployData :=
  match deploymentBody oracle ctx with
  | Except.ok d => ⟨"success", "Deployment completed successfully", some d⟩
  | Except.error e => format_error e

/-- The backtick character (code point 96), used to reason about the
markdown code fences handled by _clean_yaml_response. -/
def backtick : Char := Char.ofNat 96

/-!
Rate-limited call gateway (BaseAgent._process_queue, claim C9): a timed
trace model over rational time.  Each queued item carries the duration of
its outbound request, the consumer-loop delay before the next dequeue
(the 0.1 sleep and scheduling), and whether the request succeeds.  The
consumer sleeps as needed so the request starts at least
min_request_interval after last_request_time; last_request_time is
updated only after a successful request.
-/

structure QueueItem : Type where
  duration : ℚ
  delayAfter : ℚ
  succeeds : Bool

/-- The consumer loop of _process_queue: from last_request_time and the
current dequeue time, the (start, completion) times of each outbound
call. -/
def processQueue (minInterval : ℚ) : ℚ → ℚ → List QueueItem → List (ℚ × ℚ)
  | _, _, [] => []
  | last, now, item :: rest =>
    let start := if now - last < minInterval then now + (minInterval - (now - last)) else now
    let comp := start + item.duration
    (start, comp) ::
      processQueue minInterval (if item.succeeds then comp else last)
        (comp + item.delayAfter) rest

/-- The completion times of the outbound calls of one consumer run. -/
def completionTimes (minInterval last now : ℚ) (items : List QueueItem) : List ℚ :=
  (processQueue minInterval last now items).map Prod.snd

/-!
Code review task (run_review in src/main.py, claim C6): the per-file
review loop with oracle-supplied per-file outcomes.
-/

inductive Finding : Type
  | fromAI (text : String)
  | parseError (location : String)
  | reviewError (location : String) (msg : String)
  | mockReview
deriving DecidableEq

/-- Outcome of reviewing one file: the content fetch may raise, the
completion call may raise (hard failure), its response may fail JSON
parsing, or it parses into findings, recommendations and a score. -/
inductive FileOutcome : Type
  | contentError (msg : String)
  | openaiFail (msg : String)
  | badJSON
  | good (findings : List String) (recommendations : List String) (score : ℚ)
deriving DecidableEq

structure ReviewFile : Type where
  path : String
  outcome : FileOutcome
deriving DecidableEq

/-- The loop variables of run_review; sent records the paths for which the
completion service was actually called. -/
structure ReviewLoopState : Type where
  findings : List Finding
  recommendations : List String
  total_score : ℚ
  files_reviewed : Nat
  openai_failed : Bool
  openai_error_message : Option String
  sent : List String
deriving DecidableEq

def initialReviewState : ReviewLoopState := ⟨[], [], 0, 0, false, none, []⟩

/-- The for-loop over code_files[:5] of run_review: a content-fetch error
adds a medium finding and continues; a hard completion failure sets the
failure flag and breaks; malformed JSON adds a low finding and continues;
a parsed review extends the aggregates. -/
def reviewLoop : ReviewLoopState → List ReviewFile → ReviewLoopState
  | st, [] => st
  | st, f :: rest =>
    match f.outcome with
    | FileOutcome.contentError m =>
      reviewLoop { st with findings := st.findings ++ [Finding.reviewError f.path m] } rest
    | FileOutcome.openaiFail m =>
      { st with
          openai_failed := true
          openai_error_message := some m
          sent := st.sent ++ [f.path] }
    | FileOutcome.badJSON =>
      reviewLoop
        { st with
            findings := st.findings ++ [Finding.parseError f.path]
            sent := st.sent ++ [f.path] } rest
    | FileOutcome.good fs recs sc =>
      reviewLoop
        { st with
            findings := st.findings ++ fs.map Finding.fromAI
            recommendations := st.recommendations ++ recs
            total_score := st.total_score + sc
            files_reviewed := st.files_reviewed + 1
            sent := st.sent ++ [f.path] } rest

def mockFindings : List Finding := [Finding.mockReview]

def mockRecommendations : List String :=
  ["Add more tests to your codebase.",
   "Follow best practices for code structure.",
   "Ensure proper error handling."]

/-- The operation payload stored by run_review. -/
structure ReviewOperation : Type where
  review_id : String
  status : String
  message : String
  findings : List Finding
  recommendations : List String
  score : ℚ
  summary : String
deriving DecidableEq

/-- The code-file filter of run_review: blobs whose path does not start
with .git, node_modules or __pycache__. -/
def filterCodeFiles (items : List TreeItem) : List TreeItem :=
  items.filter (fun f => f.typ == "blob" &&
    !(pyStartsWith ".git".toList f.path.toList ||
      pyStartsWith "node_modules".toList f.path.toList ||
      pyStartsWith "__pycache__".toList f.path.toList))

/-- run_review after the analysis step: loop over the first 5 code files,
then either the mock fallback (on a hard completion failure or zero files
reviewed) or the aggregate result (the final summary call is
oracle-supplied). -/
def runReview (operation_id : String) (code_files : List ReviewFile)
    (summaryCall : Except String String) : ReviewOperation :=
  let st := reviewLoop initialReviewState (code_files.take 5)
  if st.openai_failed || st.files_reviewed == 0 then
    { review_id := operation_id
      status := "completed"
      message := if st.openai_failed then
          "Code review completed with mock fallback due to OpenAI error."
        else "Code review completed"
      findings := mockFindings
      recommendations := mockRecommendations
      score := 50
      summary := "OpenAI review failed: " ++
        st.openai_error_message.getD "Unknown error" ++ ". Returned mock review." }
  else
    { review_id := operation_id
      status := "completed"
      message := "Code review completed"
      findings := st.findings
      recommendations := st.recommendations
      score := st.total_score / (st.files_reviewed : ℚ)
      summary :=
        if !st.findings.isEmpty || !st.recommendations.isEmpty then
          match summaryCall with
          | Except.ok s => s
          | Except.error e => "OpenAI summary failed: " ++ e ++ "."
        else "No significant issues found in the reviewed files." }

/-- The seven-file repository tree of the end-to-end review scenario (plus
entries that the code-file filter removes). -/
def cexReviewTree : List TreeItem :=
  [⟨".git/config", "blob"⟩, ⟨"src", "tree"⟩,
   ⟨"f1", "blob"⟩, ⟨"f2", "blob"⟩, ⟨"f3", "blob"⟩, ⟨"f4", "blob"⟩,
   ⟨"f5", "blob"⟩, ⟨"f6", "blob"⟩, ⟨"f7", "blob"⟩]

/-- Per-file outcomes of the scenario: files 1 and 2 parse with findings,
the completion call for the 3rd file raises a hard error. -/
def cexReviewOutcome (p : String) : FileOutcome :=
  if p = "f1" then FileOutcome.good ["finding A"] ["rec A"] 8
  else if p = "f2" then FileOutcome.good ["finding B"] [] 6
  else if p = "f3" then FileOutcome.openaiFail "quota exceeded"
  else FileOutcome.good [] [] 5

def cexReviewFiles : List ReviewFile :=
  (filterCodeFiles cexReviewTree).map (fun t => ⟨t.path, cexReviewOutcome t.path⟩)

/-! Dict lemmas. -/

theorem dictGet_dictSet_ne {α : Type} (k k2 : String) (v : α) (m : List (String × α))
    (h : k ≠ k2) : dictGet k (dictSet k2 v m) = dictGet k m := by
  induction m with
  | nil => simp [dictSet, dictGet, Ne.symm h]
  | cons p rest ih =>
    by_cases hp : p.1 = k2
    · have hp2 : ¬ p.1 = k := fun hc => h (hc ▸ hp)
      simp [dictSet, hp, dictGet, Ne.symm h, hp2]
    · simp [dictSet, hp, dictGet, ih]

theorem dictGet_dictSet_self {α : Type} (k : String) (v : α) (m : List (String × α)) :
    dictGet k (dictSet k v m) = some v := by
  induction m with
  | nil => simp [dictSet, dictGet]
  | cons p rest ih =>
    by_cases h : p.1 = k
    · simp [dictSet, h, dictGet]
    · simp [dictSet, h, dictGet, ih]

theorem dictGet_eq_none_of_not_mem {α : Type} (k : String) (m : List (String × α))
    (h : k ∉ m.map Prod.fst) : dictGet k m = none := by
  induction m with
  | nil => rfl
  | cons p rest ih =>
    simp only [List.map_cons, List.mem_cons] at h
    push_neg at h
    simp [dictGet, Ne.symm h.1, ih h.2]

theorem dictGet_dictDel_self {α : Type} (k : String) (m : List (String × α))
    (hnd : (m.map Prod.fst).Nodup) : dictGet k (dictDel k m) = none := by
  induction m with
  | nil => rfl
  | cons p rest ih =>
    simp only [List.map_cons, List.nodup_cons] at hnd
    by_cases h : p.1 = k
    · subst h
      simpa [dictDel] using dictGet_eq_none_of_not_mem p.1 rest hnd.1
    · simp [dictDel, h, dictGet, ih hnd.2]

theorem dictGet_dictDel_ne {α : Type} (k k2 : String) (m : List (String × α))
    (h : k2 ≠ k) : dictGet k2 (dictDel k m) = dictGet k2 m := by
  induction m with
  | nil => rfl
  | cons p rest ih =>
    by_cases hp : p.1 = k
    · have hp2 : ¬ p.1 = k2 := fun hc => h (hc ▸ hp)
      simp [dictDel, hp, dictGet, hp2, Ne.symm h]
    · by_cases hp2 : p.1 = k2
      · simp [dictDel, hp, dictGet, hp2, h]
      · simp [dictDel, hp, dictGet, hp2, ih]

theorem dictHas_false_not_mem {α : Type} (k : String) (m : List (String × α))
    (h : dictHas k m = false) : k ∉ m.map Prod.fst := by
  induction m with
  | nil => simp
  | cons p rest ih =>
    simp only [dictHas, Bool.or_eq_false_iff, beq_eq_false_iff_ne] at h
    simp only [List.map_cons, List.mem_cons]
    push_neg
    exact ⟨fun hc => h.1 hc.symm, ih h.2⟩

/-- C1: writing a payload for an operation id and then reading that id back,
with no intervening write to the id, returns exactly the written payload. -/
theorem set_get_roundtrip {α : Type} (op_id : String) (data : α) (st : StoreFile α) :
    get_operation op_id (set_operation op_id data st) = some data := by
  simp [get_operation, set_operation, write_operations, read_operations,
    dictGet_dictSet_self]

/-- C10: delete_operation on an absent id performs no write to the backing
file and leaves it unchanged; on a present id it performs one write that
removes exactly that entry and leaves every other id's entry unchanged. -/
theorem delete_operation_frame {α : Type} (op_id : String) (st : StoreFile α)
    (hnd : ((read_operations st).map Prod.fst).Nodup) :
    (dictHas op_id (read_operations st) = false →
      delete_operation op_id st = (st, false)) ∧
    (dictHas op_id (read_operations st) = true →
      (delete_operation op_id st).2 = true ∧
      get_operation op_id (delete_operation op_id st).1 = none ∧
      ∀ k : String, k ≠ op_id →
        get_operation k (delete_operation op_id st).1 = get_operation k st) := by
  constructor
  · intro habs
    simp [delete_operation, habs]
  · intro hpres
    have hdel : delete_operation op_id st =
        (write_operations (dictDel op_id (read_operations st)), true) := by
      simp [delete_operation, hpres]
    refine ⟨by rw [hdel], ?_, ?_⟩
    · rw [hdel]
      simp only [get_operation, write_operations, read_operations]
      exact dictGet_dictDel_self _ _ hnd
    · intro k hk
      rw [hdel]
      simp only [get_operation, write_operations, read_operations]
      exact dictGet_dictDel_ne _ _ _ hk

/-- C10 witness: a concrete store with ids a and b; deleting the absent id c
is a no-op without a write, deleting a removes only a. -/
theorem delete_operation_frame_witness :
    (((read_operations (some [("a", 1), ("b", 2)])).map Prod.fst).Nodup ∧
      dictHas "c" (read_operations (some [("a", 1), ("b", 2)])) = false ∧
      dictHas "a" (read_operations (some [("a", 1), ("b", 2)])) = true) ∧
    delete_operation "c" (some [("a", 1), ("b", 2)]) = (some [("a", 1), ("b", 2)], false) ∧
    ((delete_operation "a" (some [("a", 1), ("b", 2)])).2 = true ∧
      get_operation "a" (delete_operation "a" (some [("a", 1), ("b", 2)])).1 = none ∧
      get_operation "b" (delete_operation "a" (some [("a", 1), ("b", 2)])).1 =
        get_operation "b" (some [("a", 1), ("b", 2)])) := by
  have hnd : (((read_operations (some [("a", 1), ("b", 2)])).map Prod.fst).Nodup) := by
    simp [read_operations]
  have h := delete_operation_frame "c" (some [("a", 1), ("b", 2)]) hnd
  have h2 := delete_operation_frame "a" (some [("a", 1), ("b", 2)]) hnd
  refine ⟨⟨hnd, by decide, by decide⟩, h.1 (by decide), ?_⟩
  have h3 := h2.2 (by decide)
  exact ⟨h3.1, h3.2.1, h3.2.2 "b" (by decide)⟩

/-- C2 counterexample: the source locks the read and the write separately,
so the interleaving readA, readB, writeA, writeB is a valid interleaving of
two set_operation calls on the distinct ids opA and opB starting from an
empty store, and it loses writer A's entry: afterwards opA is not readable.
Hence it is false that both entries are readable under every interleaving. -/
theorem concurrent_writers_lost_update_counterexample :
    validInterleaving
      [WriterEvent.readA, WriterEvent.readB, WriterEvent.writeA, WriterEvent.writeB] ∧
    get_operation "opA" (runWriters "opA" (1 : Nat) "opB" 2
      [WriterEvent.readA, WriterEvent.readB, WriterEvent.writeA, WriterEvent.writeB]
      (some [])).file = none ∧
    ¬ (∀ events : List WriterEvent, validInterleaving events →
        get_operation "opA"
          (runWriters "opA" (1 : Nat) "opB" 2 events (some [])).file = some 1 ∧
        get_operation "opB"
          (runWriters "opA" (1 : Nat) "opB" 2 events (some [])).file = some 2) := by
  refine ⟨by decide, by decide, fun h => ?_⟩
  have hA := (h [WriterEvent.readA, WriterEvent.readB, WriterEvent.writeA, WriterEvent.writeB]
    (by decide)).1
  have hnone : get_operation "opA" (runWriters "opA" (1 : Nat) "opB" 2
      [WriterEvent.readA, WriterEvent.readB, WriterEvent.writeA, WriterEvent.writeB]
      (some [])).file = none := by decide
  rw [hnone] at hA
  exact Option.noConfusion hA

/-- C2 amended: the exclusive lock is held only around the read and around
the write separately, so a lost update is possible (see the counterexample);
what holds is that in every serialized interleaving, where one writer's
read-mutate-write span completes before the other's starts, both entries
for distinct ids are readable afterward. -/
theorem concurrent_writers_serialized (idA idB : String) {α : Type} (vA vB : α)
    (init : StoreFile α) (hne : idA ≠ idB) :
    (get_operation idA (runWriters idA vA idB vB
        [WriterEvent.readA, WriterEvent.writeA, WriterEvent.readB, WriterEvent.writeB]
        init).file = some vA ∧
      get_operation idB (runWriters idA vA idB vB
        [WriterEvent.readA, WriterEvent.writeA, WriterEvent.readB, WriterEvent.writeB]
        init).file = some vB) ∧
    (get_operation idA (runWriters idA vA idB vB
        [WriterEvent.readB, WriterEvent.writeB, WriterEvent.readA, WriterEvent.writeA]
        init).file = some vA ∧
      get_operation idB (runWriters idA vA idB vB
        [WriterEvent.readB, WriterEvent.writeB, WriterEvent.readA, WriterEvent.writeA]
        init).file = some vB) := by
  constructor
  · constructor
    · simp [runWriters, concStep, get_operation, write_operations, read_operations,
        dictGet_dictSet_ne _ _ _ _ hne, dictGet_dictSet_self]
    · simp [runWriters, concStep, get_operation, write_operations, read_operations,
        dictGet_dictSet_self]
  · constructor
    · simp [runWriters, concStep, get_operation, write_operations, read_operations,
        dictGet_dictSet_self]
    · simp [runWriters, concStep, get_operation, write_operations, read_operations,
        dictGet_dictSet_ne _ _ _ _ (Ne.symm hne), dictGet_dictSet_self]

/-- C2 amended witness: serialized runs of writers to the distinct ids opA
and opB from the empty store keep both entries readable. -/
theorem concurrent_writers_serialized_witness :
    ("opA" : String) ≠ "opB" ∧
    get_operation "opA" (runWriters "opA" (1 : Nat) "opB" 2
      [WriterEvent.readA, WriterEvent.writeA, WriterEvent.readB, WriterEvent.writeB]
      (some [])).file = some 1 :=
  ⟨by decide,
    (concurrent_writers_serialized "opA" "opB" 1 2 (some []) (by decide)).1.1⟩

/-- C4: polling an id that is absent from the store (never scheduled, or
scheduled but its task write not yet landed - scheduling itself writes
nothing, so no processing record ever exists) yields the 404 not-found
signal; once the task's single write has landed, polling returns exactly
the stored terminal payload. -/
theorem get_operation_status_polling {α : Type} (enc : α → JsonVal)
    (operation_id : String) (st : StoreFile JsonVal) (result : AgentResult α)
    (habsent : get_operation operation_id st = none) :
    get_operation_status operation_id st = Except.error ⟨404, "Operation not found"⟩ ∧
    (analyze_repository_schedule operation_id st).2 = st ∧
    get_operation_status operation_id
        (run_analysis_write enc operation_id result st) =
      Except.ok (resultToJson enc result) := by
  refine ⟨?_, rfl, ?_⟩
  · simp [get_operation_status, habsent]
  · have hget : get_operation operation_id
        (run_analysis_write enc operation_id result st) =
        some (resultToJson enc result) := by
      simp [run_analysis_write, get_operation, set_operation, write_operations,
        read_operations, dictGet_dictSet_self]
    simp [get_operation_status, hget, resultToJson, JsonVal.truthy]

/-- C4 witness: polling the id analyze_x on an empty store yields 404, and
after the task write lands the poll returns the stored payload. -/
theorem get_operation_status_polling_witness :
    get_operation "analyze_x" (some ([] : List (String × JsonVal))) = none ∧
    get_operation_status "analyze_x" (some []) =
      Except.error ⟨404, "Operation not found"⟩ ∧
    get_operation_status "analyze_x"
        (run_analysis_write id "analyze_x" (format_success "done" JsonVal.null) (some [])) =
      Except.ok (resultToJson id (format_success "done" JsonVal.null)) := by
  have habs : get_operation "analyze_x" (some ([] : List (String × JsonVal))) = none := rfl
  have h := get_operation_status_polling id "analyze_x" (some [])
    (format_success "done" JsonVal.null) habs
  exact ⟨habs, h.1, h.2.2⟩

/-- C3: every agent task's execute returns normally with one of the two
terminal statuses, and whenever its body raises, the returned value is
exactly the structured shape with status error, the raised message as the
message, and null data. -/
theorem execute_catch_all :
    (∀ (gl : GitlabClient) (ctx : AnalyzeContext),
      (codeAnalysisExecute gl ctx).status = "success" ∨
      (codeAnalysisExecute gl ctx).status = "error") ∧
    (∀ (gl : GitlabClient) (ctx : AnalyzeContext) (e : String),
      codeAnalysisBody gl ctx = Except.error e →
      codeAnalysisExecute gl ctx = ⟨"error", e, none⟩) ∧
    (∀ ctx : PipelineContext,
      (pipelineAgentExecute ctx).status = "success" ∨
      (pipelineAgentExecute ctx).status = "error") ∧
    (∀ (ctx : PipelineContext) (e : String),
      pipelineAgentBody ctx = Except.error e →
      pipelineAgentExecute ctx = ⟨"error", e, none⟩) ∧
    (∀ (st : BaseAgentState) (oracle : PipelineGenOracle) (ctx : PipelineContext),
      (pipelineGenExecute st oracle ctx).status = "success" ∨
      (pipelineGenExecute st oracle ctx).status = "error") ∧
    (∀ (st : BaseAgentState) (oracle : PipelineGenOracle) (ctx : PipelineContext)
      (e : String), pipelineGenBody st oracle ctx = Except.error e →
      pipelineGenExecute st oracle ctx = ⟨"error", e, none⟩) ∧
    (∀ (gl : GitlabClient) (ctx : ValidationContext),
      (validationExecute gl ctx).status = "success" ∨
      (validationExecute gl ctx).status = "error") ∧
    (∀ (gl : GitlabClient) (ctx : ValidationContext) (e : String),
      validationBody gl ctx = Except.error e →
      validationExecute gl ctx = ⟨"error", e, none⟩) ∧
    (∀ (oracle : DeployOracle) (ctx : DeployContext),
      (deploymentExecute oracle ctx).status = "success" ∨
      (deploymentExecute oracle ctx).status = "error") ∧
    (∀ (oracle : DeployOracle) (ctx : DeployContext) (e : String),
      deploymentBody oracle ctx = Except.error e →
      deploymentExecute oracle ctx = ⟨"error", e, none⟩) := by
  refine ⟨?_, ?_, ?_, ?_, ?_, ?_, ?_, ?_, ?_, ?_⟩
  · intro gl ctx
    cases hb : codeAnalysisBody gl ctx <;>
      simp [codeAnalysisExecute, hb, format_success, format_error]
  · intro gl ctx e hb
    simp [codeAnalysisExecute, hb, format_error]
  · intro ctx
    cases hb : pipelineAgentBody ctx <;>
      simp [pipelineAgentExecute, hb, format_success, format_error]
  · intro ctx e hb
    simp [pipelineAgentExecute, hb, format_error]
  · intro st oracle ctx
    cases hb : pipelineGenBody st oracle ctx <;>
      simp [pipelineGenExecute, hb, format_error]
  · intro st oracle ctx e hb
    simp [pipelineGenExecute, hb, format_error]
  · intro gl ctx
    cases hb : validationBody gl ctx <;>
      simp [validationExecute, hb, format_error]
  · intro gl ctx e hb
    simp [validationExecute, hb, format_error]
  · intro oracle ctx
    cases hb : deploymentBody oracle ctx <;>
      simp [deploymentExecute, hb, format_error]
  · intro oracle ctx e hb
    simp [deploymentExecute, hb, format_error]

/-- C3 witness: a context with no repository URL makes the analyze body
raise, and the execute result is exactly the structured error shape;
likewise for the pipeline task with no analysis. -/
theorem execute_catch_all_witness :
    codeAnalysisExecute ⟨fun _ => GitlabGetOutcome.err 500 "boom"⟩ ⟨none, none⟩ =
      ⟨"error", "Repository URL is required", none⟩ ∧
    pipelineAgentExecute ⟨none⟩ = ⟨"error", "Repository analysis is required", none⟩ := by
  obtain ⟨-, h1, -, h2, -, -, -, -, -, -⟩ := execute_catch_all
  exact ⟨h1 _ _ _ rfl, h2 _ _ rfl⟩

/-- C5: if the requirements.txt manifest is found in the repository, the
detected language is python regardless of the extension counts of the file
list; and for any repository where no manifest is found and the extension
multiset is js to 3 and py to 1, the detected language is javascript. -/
theorem detect_language_manifest_and_extensions (project : GitlabProject)
    (files : List String) (c : String)
    (hman : project.fileContent "requirements.txt" = some c) :
    detectLanguage files (analyzeDependencies project) = "python" ∧
    (∀ (files2 : List String) (project2 : GitlabProject),
      analyzeDependencies project2 = [] →
      (countExtensions files2 = [("js", 3), ("py", 1)] ∨
        countExtensions files2 = [("py", 1), ("js", 3)]) →
      detectLanguage files2 (analyzeDependencies project2) = "javascript") := by
  constructor
  · simp [analyzeDependencies, dependency_files, analyzeDependenciesAux,
      findManifest, hman, detectLanguage]
  · intro files2 project2 hdeps hcounts
    rw [hdeps]
    simp only [detectLanguage]
    rcases hcounts with h | h <;> rw [h] <;> decide

/-- C5 witness: a project whose only manifest is requirements.txt detects
python for any file list, and a project with no manifests and files a.js,
b.js, c.js, d.py detects javascript. -/
theorem detect_language_witness :
    (GitlabProject.mk (Except.ok [])
        (fun f => if f = "requirements.txt" then some "flask" else none)).fileContent
        "requirements.txt" = some "flask" ∧
    detectLanguage ["a.js"]
      (analyzeDependencies (GitlabProject.mk (Except.ok [])
        (fun f => if f = "requirements.txt" then some "flask" else none))) = "python" ∧
    analyzeDependencies (GitlabProject.mk (Except.ok []) (fun _ => none)) = [] ∧
    countExtensions ["a.js", "b.js", "c.js", "d.py"] = [("js", 3), ("py", 1)] ∧
    detectLanguage ["a.js", "b.js", "c.js", "d.py"]
      (analyzeDependencies (GitlabProject.mk (Except.ok []) (fun _ => none))) =
      "javascript" := by
  have h := detect_language_manifest_and_extensions
    (GitlabProject.mk (Except.ok [])
      (fun f => if f = "requirements.txt" then some "flask" else none))
    ["a.js"] "flask" (by simp)
  refine ⟨by simp, h.1, rfl, by decide, ?_⟩
  exact h.2 ["a.js", "b.js", "c.js", "d.py"]
    (GitlabProject.mk (Except.ok []) (fun _ => none)) rfl (Or.inl (by decide))

/-- C7 counterexample: with the source-control and cloud configuration
present but the completion-service credential absent, constructing the
generate task's agent succeeds instead of raising a configuration error;
the missing-credential failure surfaces only at the first outbound
completion request. -/
theorem config_at_construction_counterexample :
    pipelineGenAgentInit ⟨some "https://gitlab.com", some "token", some "proj", none, none⟩ =
      Except.ok ⟨none, "gpt-3.5-turbo"⟩ ∧
    makeOpenAIRequest ⟨none, "gpt-3.5-turbo"⟩ (Except.ok "pipeline text") =
      Except.error "OPENAI_API_KEY is not set." :=
  ⟨rfl, rfl⟩

/-- C7 amended: absence of the source-control host URL or token fails the
construction of the analyze, validate and deploy agents immediately, and
absence of the cloud project id fails the deploy agent's construction
immediately; but absence of the completion-service credential fails no
construction - the generate and pipeline agents always construct and the
configuration error is raised at the first outbound completion request. -/
theorem config_at_construction (env : Env)
    (hgl : env.gitlab_url = none ∨ env.gitlab_token = none)
    (hkey : env.openai_api_key = none) :
    codeAnalysisAgentInit env = Except.error "GitLab configuration is missing" ∧
    validationAgentInit env = Except.error "GitLab configuration is missing" ∧
    deploymentAgentInit env = Except.error "GitLab configuration is missing" ∧
    (∀ env2 : Env, env2.google_project_id = none →
      (∃ u, env2.gitlab_url = some u) → (∃ t, env2.gitlab_token = some t) →
      deploymentAgentInit env2 = Except.error "Google Cloud project ID is missing") ∧
    pipelineAgentInit env = Except.ok (baseAgentInit env) ∧
    pipelineGenAgentInit env = Except.ok (baseAgentInit env) ∧
    (∀ callOutcome : Except String String,
      makeOpenAIRequest (baseAgentInit env) callOutcome =
        Except.error "OPENAI_API_KEY is not set.") := by
  obtain ⟨url, tok, proj, key, model⟩ := env
  dsimp only at hgl hkey ⊢
  subst hkey
  refine ⟨?_, ?_, ?_, ?_, rfl, rfl, ?_⟩
  · rcases hgl with h | h
    · subst h; rfl
    · subst h; cases url <;> rfl
  · rcases hgl with h | h
    · subst h; rfl
    · subst h; cases url <;> rfl
  · rcases hgl with h | h
    · subst h; rfl
    · subst h; cases url <;> rfl
  · intro env2 hproj hu ht
    obtain ⟨u, hu⟩ := hu
    obtain ⟨t, ht⟩ := ht
    obtain ⟨url2, tok2, proj2, key2, model2⟩ := env2
    dsimp only at hproj hu ht
    subst hproj
    subst hu
    subst ht
    rfl
  · intro callOutcome
    rfl

/-- C7 amended witness: the empty environment fails the analyze agent's
construction; GitLab-only configuration fails the deploy agent on the
missing project id; and the first completion request fails without the
credential. -/
theorem config_at_construction_witness :
    codeAnalysisAgentInit ⟨none, none, none, none, none⟩ =
      Except.error "GitLab configuration is missing" ∧
    deploymentAgentInit ⟨some "u", some "t", none, none, none⟩ =
      Except.error "Google Cloud project ID is missing" ∧
    makeOpenAIRequest (baseAgentInit ⟨none, none, none, none, none⟩) (Except.ok "x") =
      Except.error "OPENAI_API_KEY is not set." := by
  have h := config_at_construction ⟨none, none, none, none, none⟩ (Or.inl rfl) rfl
  exact ⟨h.1,
    h.2.2.2.1 ⟨some "u", some "t", none, none, none⟩ rfl ⟨"u", rfl⟩ ⟨"t", rfl⟩,
    h.2.2.2.2.2.2 (Except.ok "x")⟩

/-! String-stripping lemmas for _clean_yaml_response (claim C8). -/

theorem pyStartsWith_append (p t : List Char) : pyStartsWith p (p ++ t) = true := by
  induction p with
  | nil => rfl
  | cons c cs ih => simp [pyStartsWith, ih]

theorem pyEndsWith_append (s t : List Char) : pyEndsWith t (s ++ t) = true := by
  simp [pyEndsWith, List.reverse_append, pyStartsWith_append]

theorem dropTrailingWS_append_ws (l : List Char) (c : Char)
    (h : c.isWhitespace = true) : dropTrailingWS (l ++ [c]) = dropTrailingWS l := by
  simp [dropTrailingWS, List.reverse_append, List.dropWhile_cons, h]

theorem dropTrailingWS_last (l : List Char) (b : Char)
    (hb : b.isWhitespace = false) : dropTrailingWS (l ++ [b]) = l ++ [b] := by
  simp [dropTrailingWS, List.reverse_append, List.dropWhile_cons, hb]

theorem pyStrip_cons_ws (c : Char) (l : List Char) (h : c.isWhitespace = true) :
    pyStrip (c :: l) = pyStrip l := by
  simp [pyStrip, List.dropWhile_cons, h]

theorem pyStrip_append_ws (l : List Char) (c : Char) (h : c.isWhitespace = true) :
    pyStrip (l ++ [c]) = pyStrip l := by
  unfold pyStrip
  rcases hdw : l.dropWhile Char.isWhitespace with _ | ⟨x, xs⟩
  · simp [List.dropWhile_append, hdw, List.dropWhile_cons, h, dropTrailingWS]
  · simp only [List.dropWhile_append, hdw, List.isEmpty_cons, Bool.false_eq_true,
      if_false]
    exact dropTrailingWS_append_ws _ _ h

theorem pyStartsWith_append_left (p q s : List Char)
    (h : pyStartsWith (p ++ q) s = true) : pyStartsWith p s = true := by
  induction p generalizing s with
  | nil => rfl
  | cons c cs ih =>
    cases s with
    | nil => exact absurd h (by simp [pyStartsWith])
    | cons a as =>
      simp only [List.cons_append, pyStartsWith, Bool.and_eq_true] at h ⊢
      exact ⟨h.1, ih as h.2⟩

theorem dropWhileWS_idem (l : List Char) :
    (l.dropWhile Char.isWhitespace).dropWhile Char.isWhitespace =
      l.dropWhile Char.isWhitespace := by
  induction l with
  | nil => rfl
  | cons c cs ih =>
    by_cases hc : c.isWhitespace
    · simp [List.dropWhile_cons, hc, ih]
    · simp [List.dropWhile_cons, hc]

theorem dropTrailingWS_idem (l : List Char) :
    dropTrailingWS (dropTrailingWS l) = dropTrailingWS l := by
  unfold dropTrailingWS
  rw [List.reverse_reverse, dropWhileWS_idem]

theorem dropTrailingWS_cons (c : Char) (l : List Char)
    (hc : c.isWhitespace = false) :
    dropTrailingWS (c :: l) = c :: dropTrailingWS l := by
  unfold dropTrailingWS
  rw [List.reverse_cons]
  rcases hdl : l.reverse.dropWhile Char.isWhitespace with _ | ⟨z, zs⟩
  · simp [List.dropWhile_append, hdl, List.dropWhile_cons, hc]
  · simp [List.dropWhile_append, hdl]

theorem pyStrip_idem (l : List Char) : pyStrip (pyStrip l) = pyStrip l := by
  induction l with
  | nil => rfl
  | cons c cs ih =>
    by_cases hc : c.isWhitespace
    · rw [pyStrip_cons_ws c cs hc, ih]
    · have hc2 : c.isWhitespace = false := by rwa [Bool.not_eq_true] at hc
      have h1 : pyStrip (c :: cs) = c :: dropTrailingWS cs := by
        rw [pyStrip, List.dropWhile_cons, if_neg (by rw [hc2]; exact Bool.false_ne_true),
          dropTrailingWS_cons c cs hc2]
      have h2 : pyStrip (c :: dropTrailingWS cs) =
          c :: dropTrailingWS (dropTrailingWS cs) := by
        rw [pyStrip, List.dropWhile_cons,
          if_neg (by rw [hc2]; exact Bool.false_ne_true),
          dropTrailingWS_cons c _ hc2]
      rw [h1, h2, dropTrailingWS_idem]

theorem pyStrip_cons_last (a : Char) (l : List Char) (b : Char)
    (ha : a.isWhitespace = false) (hb : b.isWhitespace = false) :
    pyStrip (a :: (l ++ [b])) = a :: (l ++ [b]) := by
  have h1 : (a :: (l ++ [b])).dropWhile Char.isWhitespace = a :: (l ++ [b]) := by
    simp [List.dropWhile_cons, ha]
  rw [pyStrip, h1, show a :: (l ++ [b]) = (a :: l) ++ [b] by simp,
    dropTrailingWS_last _ _ hb]

/-- C8: cleaning a pipeline text wrapped in markdown code-fence delimiters
(three backticks or a backticks-yaml line opener at the start, three
backticks at the end) yields the bare text with surrounding whitespace
trimmed; cleaning a text whose trimmed form neither starts nor ends with a
fence is exactly whitespace trimming. -/
theorem clean_yaml_response_spec (y : List Char) :
    cleanYamlResponse ("```yaml\n".toList ++ y ++ "\n```".toList) = pyStrip y ∧
    cleanYamlResponse ("```\n".toList ++ y ++ "\n```".toList) = pyStrip y ∧
    (pyStartsWith "```".toList (pyStrip y) = false →
      pyEndsWith "```".toList (pyStrip y) = false →
      cleanYamlResponse y = pyStrip y) := by
  have hnl : ('\n' : Char).isWhitespace = true := by decide
  have hbt : backtick.isWhitespace = false := by decide
  have hstrip_tail : pyStrip ('\n' :: (y ++ ['\n'])) = pyStrip y := by
    rw [pyStrip_cons_ws _ _ hnl, pyStrip_append_ws _ _ hnl]
  refine ⟨?_, ?_, ?_⟩
  · -- backticks-yaml opener
    have hw : "```yaml\n".toList ++ y ++ "\n```".toList =
        backtick :: (([backtick, backtick, 'y', 'a', 'm', 'l', '\n'] ++ y ++
          ['\n', backtick, backtick]) ++ [backtick]) := by
      rw [show "```yaml\n".toList =
          [backtick, backtick, backtick, 'y', 'a', 'm', 'l', '\n'] from by decide,
        show "\n```".toList = ['\n', backtick, backtick, backtick] from by decide]
      simp
    have hstrip : pyStrip ("```yaml\n".toList ++ y ++ "\n```".toList) =
        "```yaml\n".toList ++ y ++ "\n```".toList := by
      rw [hw]
      exact pyStrip_cons_last _ _ _ hbt hbt
    have hshape : "```yaml\n".toList ++ y ++ "\n```".toList =
        "```yaml".toList ++ ('\n' :: (y ++ ('\n' :: "```".toList))) := by
      rw [show "```yaml\n".toList =
          [backtick, backtick, backtick, 'y', 'a', 'm', 'l', '\n'] from by decide,
        show "\n```".toList = ['\n', backtick, backtick, backtick] from by decide,
        show "```yaml".toList = [backtick, backtick, backtick, 'y', 'a', 'm', 'l']
          from by decide,
        show "```".toList = [backtick, backtick, backtick] from by decide]
      simp
    have hsw : pyStartsWith "```yaml".toList
        ("```yaml\n".toList ++ y ++ "\n```".toList) = true := by
      rw [hshape]
      exact pyStartsWith_append _ _
    have hdrop : ("```yaml\n".toList ++ y ++ "\n```".toList).drop 7 =
        '\n' :: (y ++ ('\n' :: "```".toList)) := by
      rw [hshape,
        show (7 : Nat) = ("```yaml".toList).length from by decide]
      exact List.drop_left _ _
    have hsw3 : pyStartsWith "```".toList ('\n' :: (y ++ ('\n' :: "```".toList))) =
        false := rfl
    have hshape2 : '\n' :: (y ++ ('\n' :: "```".toList)) =
        ('\n' :: (y ++ ['\n'])) ++ "```".toList := by simp
    have hew : pyEndsWith "```".toList ('\n' :: (y ++ ('\n' :: "```".toList))) =
        true := by
      rw [hshape2]
      exact pyEndsWith_append _ _
    have htake : ('\n' :: (y ++ ('\n' :: "```".toList))).take
        (('\n' :: (y ++ ('\n' :: "```".toList))).length - 3) =
        '\n' :: (y ++ ['\n']) := by
      rw [hshape2]
      have hlen : (('\n' :: (y ++ ['\n'])) ++ "```".toList).length - 3 =
          ('\n' :: (y ++ ['\n'])).length := by
        simp
      rw [hlen]
      exact List.take_left _ _
    simp only [cleanYamlResponse, hstrip, hsw, if_true, hdrop, hsw3,
      Bool.false_eq_true, if_false, hew, htake]
    exact hstrip_tail
  · -- bare backticks opener
    have hw : "```\n".toList ++ y ++ "\n```".toList =
        backtick :: (([backtick, backtick, '\n'] ++ y ++
          ['\n', backtick, backtick]) ++ [backtick]) := by
      rw [show "```\n".toList = [backtick, backtick, backtick, '\n'] from by decide,
        show "\n```".toList = ['\n', backtick, backtick, backtick] from by decide]
      simp
    have hstrip : pyStrip ("```\n".toList ++ y ++ "\n```".toList) =
        "```\n".toList ++ y ++ "\n```".toList := by
      rw [hw]
      exact pyStrip_cons_last _ _ _ hbt hbt
    have hshape : "```\n".toList ++ y ++ "\n```".toList =
        "```".toList ++ ('\n' :: (y ++ ('\n' :: "```".toList))) := by
      rw [show "```\n".toList = [backtick, backtick, backtick, '\n'] from by decide,
        show "\n```".toList = ['\n', backtick, backtick, backtick] from by decide,
        show "```".toList = [backtick, backtick, backtick] from by decide]
      simp
    have hswYaml : pyStartsWith "```yaml".toList
        ("```\n".toList ++ y ++ "\n```".toList) = false := by
      rw [hw]
      rfl
    have hsw : pyStartsWith "```".toList
        ("```\n".toList ++ y ++ "\n```".toList) = true := by
      rw [hshape]
      exact pyStartsWith_append _ _
    have hdrop : ("```\n".toList ++ y ++ "\n```".toList).drop 3 =
        '\n' :: (y ++ ('\n' :: "```".toList)) := by
      rw [hshape, show (3 : Nat) = ("```".toList).length from by decide]
      exact List.drop_left _ _
    have hshape2 : '\n' :: (y ++ ('\n' :: "```".toList)) =
        ('\n' :: (y ++ ['\n'])) ++ "```".toList := by simp
    have hew : pyEndsWith "```".toList ('\n' :: (y ++ ('\n' :: "```".toList))) =
        true := by
      rw [hshape2]
      exact pyEndsWith_append _ _
    have htake : ('\n' :: (y ++ ('\n' :: "```".toList))).take
        (('\n' :: (y ++ ('\n' :: "```".toList))).length - 3) =
        '\n' :: (y ++ ['\n']) := by
      rw [hshape2]
      have hlen : (('\n' :: (y ++ ['\n'])) ++ "```".toList).length - 3 =
          ('\n' :: (y ++ ['\n'])).length := by
        simp
      rw [hlen]
      exact List.take_left _ _
    simp only [cleanYamlResponse, hstrip, hswYaml, Bool.false_eq_true, if_false,
      hsw, if_true, hdrop, hew, htake]
    exact hstrip_tail
  · -- unfenced text
    intro hns hne
    have hnsYaml : pyStartsWith "```yaml".toList (pyStrip y) = false := by
      by_contra hc
      rw [Bool.not_eq_false] at hc
      have h3 : pyStartsWith "```".toList (pyStrip y) = true :=
        pyStartsWith_append_left _ _ _ (by
          rw [show ("```".toList ++ "yaml".toList : List Char) = "```yaml".toList
            from by decide]
          exact hc)
      rw [h3] at hns
      exact Bool.noConfusion hns
    simp only [cleanYamlResponse, hnsYaml, Bool.false_eq_true, if_false, hns, hne]
    exact pyStrip_idem y

/-- C8 witness: a concrete pipeline text, once wrapped in a yaml code
fence, cleans back to its trimmed self, and unfenced text is only
trimmed. -/
theorem clean_yaml_response_witness :
    cleanYamlResponse
        ("```yaml\n".toList ++ "stages:\n  - build".toList ++ "\n```".toList) =
      pyStrip "stages:\n  - build".toList ∧
    pyStartsWith "```".toList (pyStrip "stages:\n  - build".toList) = false ∧
    pyEndsWith "```".toList (pyStrip "stages:\n  - build".toList) = false ∧
    cleanYamlResponse "stages:\n  - build".toList =
      pyStrip "stages:\n  - build".toList := by
  have h := clean_yaml_response_spec "stages:\n  - build".toList
  exact ⟨h.1, by decide, by decide, h.2.2 (by decide) (by decide)⟩

/-! Rate-limit lemmas (claim C9). -/

theorem processQueue_first_comp (minInterval last now : ℚ) (i : QueueItem)
    (rest : List QueueItem) (hd : 0 ≤ i.duration) :
    ∀ b ∈ (completionTimes minInterval last now (i :: rest)).head?,
      last + minInterval ≤ b := by
  intro b hb
  simp only [completionTimes, processQueue, List.map_cons, List.head?_cons,
    Option.mem_def, Option.some.injEq] at hb
  by_cases hc : now - last < minInterval
  · rw [if_pos hc] at hb
    rw [← hb]
    linarith
  · rw [if_neg hc] at hb
    push_neg at hc
    rw [← hb]
    linarith

theorem processQueue_chain (minInterval : ℚ) (items : List QueueItem) :
    ∀ last now : ℚ,
    (∀ i ∈ items, 0 ≤ i.duration) →
    (∀ i ∈ items, i.succeeds = true) →
    List.Chain' (fun a b => a + minInterval ≤ b)
      (completionTimes minInterval last now items) := by
  induction items with
  | nil =>
    intro last now _ _
    simp [completionTimes, processQueue]
  | cons i rest ih =>
    intro last now hdur hsucc
    have hisucc : i.succeeds = true := hsucc i (List.mem_cons_self _ _)
    have hdur2 : ∀ j ∈ rest, 0 ≤ j.duration :=
      fun j hj => hdur j (List.mem_cons_of_mem _ hj)
    have hsucc2 : ∀ j ∈ rest, j.succeeds = true :=
      fun j hj => hsucc j (List.mem_cons_of_mem _ hj)
    simp only [completionTimes, processQueue, List.map_cons, hisucc, if_true]
    rw [List.chain'_cons']
    constructor
    · cases rest with
      | nil => simp [processQueue]
      | cons j rest2 =>
        intro b hb
        exact processQueue_first_comp minInterval _ _ j rest2
          (hdur2 j (List.mem_cons_self _ _)) b hb
    · exact ih _ _ hdur2 hsucc2

theorem chain_head_getLast (m : ℚ) (l : List ℚ)
    (hch : l.Chain' (fun a b => a + m ≤ b)) :
    ∀ h : l ≠ [], l.head h + ((l.length - 1 : ℕ) : ℚ) * m ≤ l.getLast h := by
  induction l with
  | nil => intro h; exact absurd rfl h
  | cons a t ih =>
    intro h
    cases t with
    | nil => simp
    | cons b t2 =>
      rw [List.chain'_cons] at hch
      have h1 := hch.1
      have h2 := ih hch.2 (by simp)
      rw [List.getLast_cons (by simp : (b :: t2 : List ℚ) ≠ [])]
      simp only [List.head_cons] at h2 ⊢
      have hlen1 : (((a :: b :: t2).length - 1 : ℕ) : ℚ) = (t2.length : ℚ) + 1 := by
        simp [List.length_cons]
      have hlen2 : (((b :: t2).length - 1 : ℕ) : ℚ) = (t2.length : ℚ) := by
        simp [List.length_cons]
      rw [hlen1]
      rw [hlen2] at h2
      nlinarith [h1, h2]

/-- C9 amended: when every outbound call succeeds, consecutive call
completions are at least min_interval apart (the consumer sleeps as
needed), so the N calls span at least (N-1) * min_interval; but a FAILED
call does not update last_request_time, so the claim as stated over all
traces fails (see the counterexample). -/
theorem rate_limited_gateway_spacing (minInterval last now : ℚ)
    (items : List QueueItem)
    (hdur : ∀ i ∈ items, 0 ≤ i.duration)
    (hsucc : ∀ i ∈ items, i.succeeds = true) :
    List.Chain' (fun a b => a + minInterval ≤ b)
      (completionTimes minInterval last now items) ∧
    ∀ h : completionTimes minInterval last now items ≠ [],
      (completionTimes minInterval last now items).head h +
        (((completionTimes minInterval last now items).length - 1 : ℕ) : ℚ) *
          minInterval ≤
      (completionTimes minInterval last now items).getLast h := by
  have hch := processQueue_chain minInterval items last now hdur hsucc
  exact ⟨hch, chain_head_getLast minInterval _ hch⟩

/-- C9 amended witness: two instant successful calls queued at time 0 with
min_interval 1 complete at times 1 and 2, at least 1 apart. -/
theorem rate_limited_gateway_spacing_witness :
    completionTimes 1 0 0 [⟨0, 1/10, true⟩, ⟨0, 1/10, true⟩] = [1, 2] ∧
    List.Chain' (fun a b => a + 1 ≤ b)
      (completionTimes 1 0 0 [⟨0, 1/10, true⟩, ⟨0, 1/10, true⟩]) := by
  constructor
  · norm_num [completionTimes, processQueue]
  · exact (rate_limited_gateway_spacing 1 0 0 [⟨0, 1/10, true⟩, ⟨0, 1/10, true⟩]
      (by intro i hi; fin_cases hi <;> norm_num)
      (by intro i hi; fin_cases hi <;> norm_num)).1

/-- C9 counterexample: a failed call does not update last_request_time, so
the next call is spaced relative to the last successful call.  With
min_interval 1 and both prompts queued at time 0, the first call lasts 1/2
and fails at time 3/2; the second call then starts at 8/5 and completes at
8/5, only 1/10 after the first - less than (N-1) * min_interval = 1.  So
the claimed spacing does not hold for every trace. -/
theorem rate_limited_gateway_counterexample :
    processQueue 1 0 0 [⟨1/2, 1/10, false⟩, ⟨0, 0, true⟩] =
      [((1 : ℚ), (3/2 : ℚ)), ((8/5 : ℚ), (8/5 : ℚ))] ∧
    completionTimes 1 0 0 [⟨1/2, 1/10, false⟩, ⟨0, 0, true⟩] =
      [(3/2 : ℚ), (8/5 : ℚ)] ∧
    ¬ List.Chain' (fun a b => a + 1 ≤ b)
      (completionTimes 1 0 0 [⟨1/2, 1/10, false⟩, ⟨0, 0, true⟩]) := by
  have h1 : processQueue 1 0 0 [⟨1/2, 1/10, false⟩, ⟨0, 0, true⟩] =
      [((1 : ℚ), (3/2 : ℚ)), ((8/5 : ℚ), (8/5 : ℚ))] := by
    norm_num [processQueue]
  refine ⟨h1, ?_, ?_⟩
  · unfold completionTimes
    rw [h1]
    simp
  · unfold completionTimes
    rw [h1]
    simp only [List.map_cons, List.map_nil, List.chain'_cons,
      List.chain'_singleton, and_true]
    norm_num

/-! Review-loop lemmas (claim C6). -/

theorem reviewLoop_sent_sublist (fs : List ReviewFile) :
    ∀ st : ReviewLoopState, ∃ extra,
      (reviewLoop st fs).sent = st.sent ++ extra ∧
      extra.Sublist (fs.map (fun g => g.path)) := by
  induction fs with
  | nil =>
    intro st
    exact ⟨[], by simp [reviewLoop], List.nil_sublist _⟩
  | cons f rest ih =>
    intro st
    rcases hf : f.outcome with m | m | _ | ⟨fs2, recs, sc⟩
    · obtain ⟨extra, he, hs⟩ :=
        ih { st with findings := st.findings ++ [Finding.reviewError f.path m] }
      exact ⟨extra, by simp [reviewLoop, hf, he], hs.cons _⟩
    · refine ⟨[f.path], by simp [reviewLoop, hf], ?_⟩
      exact (List.nil_sublist (rest.map (fun g => g.path))).cons₂ f.path
    · obtain ⟨extra, he, hs⟩ :=
        ih { st with
              findings := st.findings ++ [Finding.parseError f.path]
              sent := st.sent ++ [f.path] }
      refine ⟨f.path :: extra, ?_, hs.cons₂ _⟩
      simp [reviewLoop, hf, he]
    · obtain ⟨extra, he, hs⟩ :=
        ih { st with
              findings := st.findings ++ fs2.map Finding.fromAI
              recommendations := st.recommendations ++ recs
              total_score := st.total_score + sc
              files_reviewed := st.files_reviewed + 1
              sent := st.sent ++ [f.path] }
      refine ⟨f.path :: extra, ?_, hs.cons₂ _⟩
      simp [reviewLoop, hf, he]

theorem reviewLoop_break (f : ReviewFile) (m : String)
    (hf : f.outcome = FileOutcome.openaiFail m) :
    ∀ (pre : List ReviewFile) (post : List ReviewFile) (st : ReviewLoopState),
    (∀ g ∈ pre, ∀ m2, g.outcome ≠ FileOutcome.openaiFail m2) →
    reviewLoop st (pre ++ f :: post) =
      { reviewLoop st pre with
          openai_failed := true
          openai_error_message := some m
          sent := (reviewLoop st pre).sent ++ [f.path] } := by
  intro pre
  induction pre with
  | nil =>
    intro post st _
    simp [reviewLoop, hf]
  | cons g rest ih =>
    intro post st hpre
    have hnext : ∀ g2 ∈ rest, ∀ m2, g2.outcome ≠ FileOutcome.openaiFail m2 :=
      fun g2 hg2 => hpre g2 (List.mem_cons_of_mem _ hg2)
    rcases hgo : g.outcome with m2 | m2 | _ | ⟨fs2, recs, sc⟩
    · simp only [List.cons_append, reviewLoop, hgo]
      exact ih post _ hnext
    · exact absurd hgo (hpre g (List.mem_cons_self _ _) m2)
    · simp only [List.cons_append, reviewLoop, hgo]
      exact ih post _ hnext
    · simp only [List.cons_append, reviewLoop, hgo]
      exact ih post _ hnext

/-- C6 amended: at most the first 5 code files are sent to the completion
service (the sent paths form a sublist of the first five paths); a hard
completion failure on one file stops all further sends (the sent list ends
at that file); and the fallback then REPLACES the aggregates: the stored
result carries the single mock finding, the fixed mock recommendations and
score 50 - the findings accumulated from the earlier successfully reviewed
files are discarded, not retained - with status completed and the fallback
message. -/
theorem review_partial_failure (operation_id : String) (files : List ReviewFile)
    (summaryCall : Except String String) (pre post : List ReviewFile)
    (f : ReviewFile) (m : String)
    (hsplit : files.take 5 = pre ++ f :: post)
    (hf : f.outcome = FileOutcome.openaiFail m)
    (hpre : ∀ g ∈ pre, ∀ m2, g.outcome ≠ FileOutcome.openaiFail m2) :
    ((reviewLoop initialReviewState (files.take 5)).sent).Sublist
      ((files.take 5).map (fun g => g.path)) ∧
    (reviewLoop initialReviewState (files.take 5)).sent.length ≤ 5 ∧
    (reviewLoop initialReviewState (files.take 5)).sent =
      (reviewLoop initialReviewState pre).sent ++ [f.path] ∧
    runReview operation_id files summaryCall =
      ⟨operation_id, "completed",
        "Code review completed with mock fallback due to OpenAI error.",
        mockFindings, mockRecommendations, 50,
        "OpenAI review failed: " ++ m ++ ". Returned mock review."⟩ := by
  obtain ⟨extra, he, hs⟩ := reviewLoop_sent_sublist (files.take 5) initialReviewState
  have hsub : ((reviewLoop initialReviewState (files.take 5)).sent).Sublist
      ((files.take 5).map (fun g => g.path)) := by
    rw [he]
    simpa [initialReviewState] using hs
  have hlen : (reviewLoop initialReviewState (files.take 5)).sent.length ≤ 5 := by
    calc (reviewLoop initialReviewState (files.take 5)).sent.length
        ≤ ((files.take 5).map (fun g => g.path)).length := hsub.length_le
      _ = (files.take 5).length := List.length_map _ _
      _ ≤ 5 := by
          rw [List.length_take]
          exact min_le_left _ _
  have hbrk := reviewLoop_break f m hf pre post initialReviewState hpre
  refine ⟨hsub, hlen, ?_, ?_⟩
  · rw [hsplit, hbrk]
  · simp only [runReview, hsplit, hbrk, Bool.true_or, if_true]
    simp [mockFindings, mockRecommendations]

/-- C6 amended witness: the seven-file scenario with the hard failure on
the third file. -/
theorem review_partial_failure_witness :
    cexReviewFiles.take 5 =
      [⟨"f1", FileOutcome.good ["finding A"] ["rec A"] 8⟩,
       ⟨"f2", FileOutcome.good ["finding B"] [] 6⟩] ++
      ⟨"f3", FileOutcome.openaiFail "quota exceeded"⟩ ::
      [⟨"f4", FileOutcome.good [] [] 5⟩, ⟨"f5", FileOutcome.good [] [] 5⟩] ∧
    runReview "review_x" cexReviewFiles (Except.ok "s") =
      ⟨"review_x", "completed",
        "Code review completed with mock fallback due to OpenAI error.",
        mockFindings, mockRecommendations, 50,
        "OpenAI review failed: quota exceeded. Returned mock review."⟩ := by
  have hsplit : cexReviewFiles.take 5 =
      [⟨"f1", FileOutcome.good ["finding A"] ["rec A"] 8⟩,
       ⟨"f2", FileOutcome.good ["finding B"] [] 6⟩] ++
      ⟨"f3", FileOutcome.openaiFail "quota exceeded"⟩ ::
      [⟨"f4", FileOutcome.good [] [] 5⟩, ⟨"f5", FileOutcome.good [] [] 5⟩] := by
    decide
  have h := review_partial_failure "review_x" cexReviewFiles (Except.ok "s")
    [⟨"f1", FileOutcome.good ["finding A"] ["rec A"] 8⟩,
     ⟨"f2", FileOutcome.good ["finding B"] [] 6⟩]
    [⟨"f4", FileOutcome.good [] [] 5⟩, ⟨"f5", FileOutcome.good [] [] 5⟩]
    ⟨"f3", FileOutcome.openaiFail "quota exceeded"⟩ "quota exceeded"
    hsplit rfl
    (by
      intro g hg m2 hcontra
      fin_cases hg <;> simp_all)
  exact ⟨hsplit, h.2.2.2⟩

/-- C6 counterexample: in the seven-file scenario where files 1 and 2
parse with findings and the completion call for file 3 raises, the loop
had accumulated the findings of files 1 and 2, but the stored result's
findings list is exactly the single mock finding: the earlier findings
are NOT retained in the stored result, refuting the retained clause of
the claim (the other clauses hold, see the amended theorem). -/
theorem review_findings_not_retained_counterexample :
    cexReviewFiles.map (fun g => g.path) =
      ["f1", "f2", "f3", "f4", "f5", "f6", "f7"] ∧
    (reviewLoop initialReviewState (cexReviewFiles.take 5)).findings =
      [Finding.fromAI "finding A", Finding.fromAI "finding B"] ∧
    (runReview "review_x" cexReviewFiles (Except.ok "s")).findings =
      [Finding.mockReview] ∧
    Finding.fromAI "finding A" ∉
      (runReview "review_x" cexReviewFiles (Except.ok "s")).findings ∧
    (runReview "review_x" cexReviewFiles (Except.ok "s")).score = 50 := by
  decide

end GitlabAnalyser
